import Mathlib

/-!
Verification of the WCA gap-tracking repository's vote-state tracking and
change-detection engine. The definitions below are shallow embeddings of the
Python sources (`notification_service.py`, `vote_gap_tracker.py`,
`pifam/pifam_gap_tracker.py`, `wca_vote_crawler.py`): vote counts are `Nat`,
timestamps are `Int` seconds, Python dicts become insertion-ordered
association lists, and the notification loop's per-recipient cycle becomes a
pure function from state to (events, new state).
-/

/-- Embeds `NotificationService.get_milestone_step` (notification_service.py,
lines 217-227): the milestone step schedule, evaluated on a vote count. -/
def getMilestoneStep (voteCount : Nat) : Nat :=
  if voteCount ≤ 10000 then 1000
  else if voteCount ≤ 50000 then 5000
  else if voteCount ≤ 200000 then 10000
  else if voteCount ≤ 1000000 then 50000
  else 100000

/-- Embeds `NotificationService.check_milestone_crossed` (notification_service.py,
lines 229-240): returns the newly crossed milestone value, or none. -/
def checkMilestoneCrossed (oldVote newVote : Nat) : Option Nat :=
  if newVote ≤ oldVote then none
  else
    let step := getMilestoneStep newVote
    let oldMilestone := (oldVote / step) * step
    let newMilestone := (newVote / step) * step
    if oldMilestone < newMilestone then some newMilestone
    else none

/-- Stable descending insertion: places `x` after every element with a strictly
larger key and before the first element with a key at most `v x`. Used to embed
Python's stable `sorted(..., key=votes, reverse=True)`. -/
def insertDesc (v : String → Nat) (x : String) : List String → List String
  | [] => [x]
  | y :: ys => if v x < v y then y :: insertDesc v x ys else x :: y :: ys

/-- Embeds the ranking computation `sorted(ids, key=lambda x: votes.get(x, 0),
reverse=True)` (notification_service.py, lines 310-311; vote_gap_tracker.py,
lines 89-93): a stable sort, descending by vote count. -/
def rankSort (v : String → Nat) : List String → List String
  | [] => []
  | x :: xs => insertDesc v x (rankSort v xs)

/-- A concrete vote-count assignment realising the spec's ranking example:
A has 100 votes, B and C are tied at 150. -/
def exampleVotes : String → Nat :=
  fun s => if s = "A" then 100 else if s = "B" then 150 else if s = "C" then 150 else 0

/-- The typed events the notification loop can emit for one recipient
(notification_service.py, `run`, lines 318-387): a periodic race summary, a
new-leader rank change, a generic rank-up, or a crossed milestone. The
constructors record the data each message template carries. -/
inductive DetectedEvent where
  | raceSummary (awardId leaderId : String) (leaderVotes : Nat) (gap : Int)
  | newLeader (awardId nomineeId : String)
  | rankUp (awardId nomineeId : String) (newRank : Nat)
  | milestone (awardId nomineeId : String) (value : Nat)
  deriving DecidableEq

/-- Python `votes.get(nid, 0)` on an insertion-ordered dict, embedded as an
association-list lookup defaulting to 0. -/
def lookupD (l : List (String × Nat)) (k : String) : Nat :=
  (l.lookup k).getD 0

/-- Python `lst.index(x)` guarded by `x in lst` (first-occurrence index),
embedded as an optional index. -/
def idxOf? (target : String) : List String → Option Nat
  | [] => none
  | x :: xs => if x = target then some 0 else (idxOf? target xs).map (fun n => n + 1)

/-- The event built at notification_service.py lines 347-365: a move to index 0
is the distinguished new-leader variant, any other upward move a generic
rank-up. -/
def mkRankEvent (awardId nomineeId : String) (newRank : Nat) : DetectedEvent :=
  if newRank = 0 then DetectedEvent.newLeader awardId nomineeId
  else DetectedEvent.rankUp awardId nomineeId newRank

/-- The loop at notification_service.py lines 341-366 with the running
enumerate counter made explicit: for each nominee of the current ranking, an
event fires iff it occurs in the previous ranking at a strictly larger index. -/
def rankChangeEventsAux (awardId : String) (prevRanking : List String) :
    Nat → List String → List DetectedEvent
  | _, [] => []
  | i, nid :: rest =>
    (match idxOf? nid prevRanking with
      | some j => if i < j then [mkRankEvent awardId nid i] else []
      | none => []) ++ rankChangeEventsAux awardId prevRanking (i + 1) rest

/-- Embeds the rank-change detection of notification_service.py lines 341-366. -/
def rankChangeEvents (awardId : String) (prevRanking currRanking : List String) :
    List DetectedEvent :=
  rankChangeEventsAux awardId prevRanking 0 currRanking

/-- Embeds the milestone loop of notification_service.py lines 368-387. -/
def milestoneEvents (awardId : String) (currentVotes prevVotes : List (String × Nat))
    (nids : List String) : List DetectedEvent :=
  nids.filterMap (fun nid =>
    (checkMilestoneCrossed (lookupD prevVotes nid) (lookupD currentVotes nid)).map
      (fun m => DetectedEvent.milestone awardId nid m))

def isRaceSummary : DetectedEvent → Bool
  | DetectedEvent.raceSummary _ _ _ _ => true
  | _ => false

/-- One award group's processing inside the per-recipient cycle
(notification_service.py lines 306-387): the periodic summary (which advances
`last_summary_time` when it fires), then rank-change events, then milestone
events. Returns the emitted events and the new `last_summary_time`. -/
def processAward (now interval : Int) (currentVotes prevVotes : List (String × Nat))
    (awardId : String) (nids : List String) (lastSummaryTime : Int) :
    List DetectedEvent × Int :=
  let currRanking := rankSort (fun x => lookupD currentVotes x) nids
  let prevRanking := rankSort (fun x => lookupD prevVotes x) nids
  let summaryPart : List DetectedEvent × Int :=
    if interval ≤ now - lastSummaryTime then
      match currRanking with
      | top1 :: top2 :: _ =>
        ([DetectedEvent.raceSummary awardId top1 (lookupD currentVotes top1)
            ((lookupD currentVotes top1 : Int) - (lookupD currentVotes top2 : Int))], now)
      | _ => ([], lastSummaryTime)
    else ([], lastSummaryTime)
  (summaryPart.1 ++ rankChangeEvents awardId prevRanking currRanking
      ++ milestoneEvents awardId currentVotes prevVotes nids,
    summaryPart.2)

/-- Nominee metadata entry as built by `load_nominee_metadata`
(notification_service.py lines 24-48), restricted to the fields the cycle
reads. -/
structure NomineeMeta where
  awardId : String
  awardName : String
  deriving DecidableEq

/-- The grouping of filtered nominee ids by award (notification_service.py
lines 291-298), preserving dict insertion order; entries whose metadata lacks a
truthy award id are dropped, as in the source. -/
def groupByAward (meta : String → Option NomineeMeta) (nids : List String) :
    List (String × List String) :=
  nids.foldl (fun acc nid =>
    match meta nid with
    | none => acc
    | some m =>
      if m.awardId = "" then acc
      else if (acc.lookup m.awardId).isSome then
        acc.map (fun p => if p.1 = m.awardId then (p.1, p.2 ++ [nid]) else p)
      else acc ++ [(m.awardId, [nid])]) []

/-- The per-recipient in-memory state (notification_service.py lines 276-283):
previous vote counts and the last summary emission time. -/
structure UserState where
  prevVotes : List (String × Nat)
  lastSummaryTime : Int
  deriving DecidableEq

/-- The filtered, currently-tracked nominee ids of a recipient
(notification_service.py lines 285-286): filter pairs joined as
`award_id-nominee_id`, kept only when present in the metadata and in the
current vote snapshot. -/
def filteredIds (meta : String → Option NomineeMeta)
    (currentVotes : List (String × Nat)) (nomineeFilter : List (String × String)) :
    List String :=
  (nomineeFilter.map (fun p => p.1 ++ "-" ++ p.2)).filter
    (fun nid => (meta nid).isSome && (currentVotes.lookup nid).isSome)

/-- One change-detection cycle for one recipient (notification_service.py
lines 269-389): empty filter or no tracked nominee leaves the state untouched;
an empty `prev_votes` is the cold start which seeds the baseline and emits
nothing; otherwise each award group is processed in order, threading
`last_summary_time`, and `prev_votes` is overwritten with the current counts. -/
def processRecipient (meta : String → Option NomineeMeta)
    (currentVotes : List (String × Nat)) (now interval : Int)
    (nomineeFilter : List (String × String)) (st : UserState) :
    List DetectedEvent × UserState :=
  let nids := filteredIds meta currentVotes nomineeFilter
  if nids.isEmpty then ([], st)
  else if st.prevVotes.isEmpty then
    ([], { prevVotes := nids.map (fun nid => (nid, lookupD currentVotes nid)),
           lastSummaryTime := st.lastSummaryTime })
  else
    let step := (groupByAward meta nids).foldl
      (fun (acc : List DetectedEvent × Int) g =>
        let r := processAward now interval currentVotes st.prevVotes g.1 g.2 acc.2
        (acc.1 ++ r.1, r.2))
      ([], st.lastSummaryTime)
    (step.1, { prevVotes := nids.map (fun nid => (nid, lookupD currentVotes nid)),
               lastSummaryTime := step.2 })

/-- The nominee a detected event is about (the leader for a race summary). -/
def eventNominee : DetectedEvent → String
  | DetectedEvent.raceSummary _ leaderId _ _ => leaderId
  | DetectedEvent.newLeader _ nomineeId => nomineeId
  | DetectedEvent.rankUp _ nomineeId _ => nomineeId
  | DetectedEvent.milestone _ nomineeId _ => nomineeId

/-- Concrete metadata for witnesses: three nominees of one award. -/
def exMeta : String → Option NomineeMeta := fun nid =>
  if nid = "w1-n1" ∨ nid = "w1-n2" ∨ nid = "w1-n3" then some ⟨"w1", "Award One"⟩
  else none

/-- Concrete current vote snapshot for witnesses. -/
def exVotes : List (String × Nat) := [("w1-n1", 300), ("w1-n2", 200), ("w1-n3", 100)]

/-- Concrete recipient nominee filter for witnesses. -/
def exFilter : List (String × String) := [("w1", "n1"), ("w1", "n2"), ("w1", "n3")]

/-- Gap record as computed by `PiFamGapTracker.calculate_and_save_gap`
(pifam/pifam_gap_tracker.py, lines 253-280), mirrored for the above/below
fields by `VoteGapTracker.get_gaps` (vote_gap_tracker.py, lines 88-140): the
rank is 1-based, gap_above/gap_below carry the neighbour id and the vote
difference, gap_to_top the distance to the head of the ranking. -/
structure GapRecord where
  actualRank : Nat
  currentVotes : Nat
  gapAbove : Option (String × Int)
  gapBelow : Option (String × Int)
  gapToTop : Int
  topId : String
  deriving DecidableEq

/-- Embeds the gap computation of `calculate_and_save_gap`
(pifam/pifam_gap_tracker.py, lines 253-280) on an already-sorted ranking:
locate the target by first index, then read the neighbours and the head. The
default element of `getD` is never reached, since the index returned by
`idxOf?` is in range. -/
def calcGap (ranking : List (String × Nat)) (target : String) : Option GapRecord :=
  match idxOf? target (ranking.map Prod.fst) with
  | none => none
  | some idx =>
    let cur := ranking.getD idx ("", 0)
    let top := ranking.getD 0 ("", 0)
    some {
      actualRank := idx + 1
      currentVotes := cur.2
      gapAbove :=
        if 0 < idx then
          some ((ranking.getD (idx - 1) ("", 0)).1,
            ((ranking.getD (idx - 1) ("", 0)).2 : Int) - (cur.2 : Int))
        else none
      gapBelow :=
        if idx < ranking.length - 1 then
          some ((ranking.getD (idx + 1) ("", 0)).1,
            (cur.2 : Int) - ((ranking.getD (idx + 1) ("", 0)).2 : Int))
        else none
      gapToTop := (top.2 : Int) - (cur.2 : Int)
      topId := top.1 }

/-- A stored `user_preferences` row (notification_service.py, lines 55-60):
the JSON filter text after decoding, with `none` standing for a NULL or empty
(falsy) column, and the interval with `none` for NULL. -/
structure PrefRow where
  nomineeFilter : Option (List (String × String))
  summaryInterval : Option Nat
  deriving DecidableEq

/-- Decoded preferences handed to callers. -/
structure Prefs where
  nomineeFilter : List (String × String)
  summaryInterval : Nat
  deriving DecidableEq

/-- The decoding shared by `get_user_preferences` and
`get_all_user_preferences` (notification_service.py, lines 123-127, 168-173):
a falsy filter column becomes [], a falsy interval (NULL or 0) becomes 900. -/
def decodePrefRow (r : PrefRow) : Prefs :=
  { nomineeFilter := r.nomineeFilter.getD []
    summaryInterval :=
      match r.summaryInterval with
      | some n => if n = 0 then 900 else n
      | none => 900 }

/-- The persistent subscriber database: `subscribers` rows (endpoint, p256dh,
auth) and `user_preferences` rows keyed by endpoint
(notification_service.py, lines 50-62). -/
structure SubDB where
  subscribers : List (String × String × String)
  preferences : List (String × PrefRow)
  deriving DecidableEq

/-- Embeds `NotificationService.remove_subscription`
(notification_service.py, lines 106-112): deletes both the subscriber row and
the preference row of the endpoint. -/
def removeSubscription (db : SubDB) (endpoint : String) : SubDB :=
  { subscribers := db.subscribers.filter (fun s => s.1 != endpoint)
    preferences := db.preferences.filter (fun p => p.1 != endpoint) }

/-- Embeds `NotificationService.get_user_preferences`
(notification_service.py, lines 114-132): the stored row decoded, or the
defaults (empty filter, 900 s) for an endpoint with no row. -/
def getUserPreferences (db : SubDB) (endpoint : String) : Prefs :=
  match db.preferences.lookup endpoint with
  | some row => decodePrefRow row
  | none => { nomineeFilter := [], summaryInterval := 900 }

/-- Embeds `NotificationService.get_all_user_preferences`
(notification_service.py, lines 154-174): preference rows inner-joined with
the subscribers table, decoded. -/
def getAllUserPreferences (db : SubDB) : List (String × Prefs) :=
  db.preferences.filterMap (fun p =>
    if db.subscribers.any (fun s => s.1 == p.1) then some (p.1, decodePrefRow p.2)
    else none)

/-- Push delivery outcomes as distinguished by the dispatcher
(notification_service.py, lines 205-213): HTTP 400/410 is a permanent failure
of the endpoint, any other exception a transient one. -/
inductive DeliveryResult where
  | delivered
  | permanentFailure
  | transientFailure
  deriving DecidableEq

/-- The dispatcher's reaction to one delivery outcome
(notification_service.py, lines 205-213): a permanent failure removes the
subscription, anything else leaves the database untouched. -/
def handleDeliveryResult (db : SubDB) (endpoint : String) : DeliveryResult → SubDB
  | DeliveryResult.permanentFailure => removeSubscription db endpoint
  | _ => db

/-- One persisted vote row of the `votes_latest` / `votes_history` tables
(wca_vote_crawler.py, lines 46-64): award id, nominee id, the vote count kept
as text, and the fetch timestamp. -/
structure VoteRow where
  awardId : String
  nomineeId : String
  voteCount : String
  fetchedAt : String
  deriving DecidableEq

/-- The persistent vote store: the latest-snapshot table (one row per key) and
the append-only history table. -/
structure VoteStore where
  latest : List VoteRow
  history : List VoteRow
  deriving DecidableEq

/-- One item of the external API's Data array (wca_vote_crawler.py, lines
149-152): award id `a`, nominee id `m`, and the vote list's textual counts. -/
structure ApiItem where
  a : String
  m : String
  list : List String
  deriving DecidableEq

/-- The external API response: a success flag and a data array. -/
structure ApiResponse where
  success : Bool
  data : List ApiItem
  deriving DecidableEq

/-- Insertion-ordered dict assignment `d[k] = v`: updates the existing entry in
place or appends a new one. -/
def dictInsert {α : Type} (l : List (String × α)) (k : String) (v : α) :
    List (String × α) :=
  if l.any (fun p => p.1 == k) then l.map (fun p => if p.1 = k then (k, v) else p)
  else l ++ [(k, v)]

/-- The response normalization of `crawl_votes` (wca_vote_crawler.py, lines
147-159): builds the nested dict award_id -> nominee_id -> count in encounter
order; an item without a vote list defaults its count to "0". -/
def buildVotesData (items : List ApiItem) : List (String × List (String × String)) :=
  items.foldl (fun acc item =>
    let count := match item.list with | [] => "0" | v :: _ => v
    dictInsert acc item.a (dictInsert ((acc.lookup item.a).getD []) item.m count)) []

/-- The row batch built by `_save_votes` (wca_vote_crawler.py, lines 110-117):
one row per (award, nominee) pair of the parsed data, stamped with `now`. -/
def voteRows (votesData : List (String × List (String × String))) (now : String) :
    List VoteRow :=
  votesData.foldl (fun acc g =>
    acc ++ g.2.map (fun p =>
      { awardId := g.1, nomineeId := p.1, voteCount := p.2, fetchedAt := now })) []

/-- One upsert into `votes_latest`, keyed by (award_id, nominee_id)
(wca_vote_crawler.py, lines 119-126). -/
def upsertLatestRow (lat : List VoteRow) (r : VoteRow) : List VoteRow :=
  if lat.any (fun x => x.awardId == r.awardId && x.nomineeId == r.nomineeId) then
    lat.map (fun x =>
      if x.awardId = r.awardId ∧ x.nomineeId = r.nomineeId then r else x)
  else lat ++ [r]

/-- Embeds `WCAVoteCrawler._save_votes` (wca_vote_crawler.py, lines 106-135):
upserts every row of the batch into the latest table and appends the same
batch to the history table. -/
def saveVotes (store : VoteStore) (now : String)
    (votesData : List (String × List (String × String))) : VoteStore :=
  { latest := (voteRows votesData now).foldl upsertLatestRow store.latest
    history := store.history ++ voteRows votesData now }

/-- Embeds `WCAVoteCrawler.crawl_votes` (wca_vote_crawler.py, lines 137-167):
`none` for the response models the transport/parse failure branch. A
non-success flag returns None with no write; otherwise the parsed data is
persisted via `_save_votes` whenever it is nonempty, and returned. -/
def crawlVotes (store : VoteStore) (now : String) (resp : Option ApiResponse) :
    Option (List (String × List (String × String))) × VoteStore :=
  match resp with
  | none => (none, store)
  | some r =>
    if r.success = false then (none, store)
    else
      let vd := buildVotesData r.data
      if vd.isEmpty then (some vd, store)
      else (some vd, saveVotes store now vd)

theorem mem_insertDesc (v : String → Nat) (x a : String) (l : List String) :
    a ∈ insertDesc v x l ↔ a = x ∨ a ∈ l := by
  induction l with
  | nil => simp [insertDesc]
  | cons y ys ih =>
    simp only [insertDesc]
    split
    · simp only [List.mem_cons, ih]
      tauto
    · simp only [List.mem_cons]

theorem perm_insertDesc (v : String → Nat) (x : String) (l : List String) :
    (insertDesc v x l).Perm (x :: l) := by
  induction l with
  | nil => simp [insertDesc]
  | cons y ys ih =>
    simp only [insertDesc]
    split
    · exact ((ih.cons y).trans (List.Perm.swap x y ys))
    · exact List.Perm.refl _

theorem perm_rankSort (v : String → Nat) (l : List String) :
    (rankSort v l).Perm l := by
  induction l with
  | nil => exact List.Perm.refl _
  | cons x xs ih =>
    exact (perm_insertDesc v x (rankSort v xs)).trans (ih.cons x)

theorem pairwise_insertDesc (v : String → Nat) (x : String) (l : List String)
    (h : l.Pairwise (fun a b => v b ≤ v a)) :
    (insertDesc v x l).Pairwise (fun a b => v b ≤ v a) := by
  induction l with
  | nil => simp [insertDesc]
  | cons y ys ih =>
    simp only [insertDesc]
    rcases h with _ | ⟨hy, hys⟩
    split
    · refine List.Pairwise.cons ?_ (ih hys)
      intro b hb
      rcases (mem_insertDesc v x b ys).1 hb with hb | hb
      · subst hb; omega
      · exact hy b hb
    · refine List.Pairwise.cons ?_ (List.Pairwise.cons hy hys)
      intro b hb
      rcases List.mem_cons.1 hb with hb | hb
      · subst hb; omega
      · have := hy b hb; omega

theorem pairwise_rankSort (v : String → Nat) (l : List String) :
    (rankSort v l).Pairwise (fun a b => v b ≤ v a) := by
  induction l with
  | nil => simp [rankSort]
  | cons x xs ih => exact pairwise_insertDesc v x (rankSort v xs) ih

theorem filter_insertDesc (v : String → Nat) (x : String) (c : Nat) (l : List String) :
    (insertDesc v x l).filter (fun a => v a == c) =
      if v x == c then x :: l.filter (fun a => v a == c)
      else l.filter (fun a => v a == c) := by
  induction l with
  | nil =>
    simp only [insertDesc, List.filter]
    split <;> simp_all
  | cons y ys ih =>
    simp only [insertDesc]
    by_cases hxy : v x < v y
    · rw [if_pos hxy, List.filter_cons, ih]
      by_cases hxc : v x = c
      · have hyc : ¬ (v y = c) := by omega
        simp [hxc, hyc, List.filter_cons]
      · by_cases hyc : v y = c <;> simp [hxc, hyc, List.filter_cons]
    · rw [if_neg hxy, List.filter_cons, List.filter_cons]

theorem filter_rankSort (v : String → Nat) (c : Nat) (l : List String) :
    (rankSort v l).filter (fun a => v a == c) = l.filter (fun a => v a == c) := by
  induction l with
  | nil => rfl
  | cons x xs ih =>
    simp only [rankSort, filter_insertDesc, List.filter_cons, ih]

theorem lookup_map_self (f : String → Nat) (l : List String) (a : String) (ha : a ∈ l) :
    (l.map (fun nid => (nid, f nid))).lookup a = some (f a) := by
  induction l with
  | nil => cases ha
  | cons x xs ih =>
    simp only [List.map, List.lookup]
    by_cases hx : a = x
    · subst hx; simp
    · have hbeq : (a == x) = false := by simpa using hx
      rw [hbeq]
      rcases List.mem_cons.1 ha with h | h
      · exact absurd h hx
      · exact ih h

/-- C3: a cycle that starts with an empty `prev_votes` emits no events of any
kind for that recipient, and afterwards `prev_votes` holds the current vote
count of every filtered, currently-tracked nominee. -/
theorem coldStart_suppression (meta : String → Option NomineeMeta)
    (currentVotes : List (String × Nat)) (now interval : Int)
    (nomineeFilter : List (String × String)) (st : UserState)
    (h : st.prevVotes = []) :
    (processRecipient meta currentVotes now interval nomineeFilter st).1 = [] ∧
      ∀ nid ∈ filteredIds meta currentVotes nomineeFilter,
        ((processRecipient meta currentVotes now interval nomineeFilter st).2.prevVotes).lookup
            nid = some (lookupD currentVotes nid) := by
  simp only [processRecipient]
  by_cases hemp : (filteredIds meta currentVotes nomineeFilter).isEmpty
  · rw [if_pos hemp]
    refine ⟨rfl, ?_⟩
    intro nid hnid
    rw [List.isEmpty_iff] at hemp
    rw [hemp] at hnid
    cases hnid
  · rw [if_neg hemp]
    have hpe : st.prevVotes.isEmpty := by rw [h]; rfl
    rw [if_pos hpe]
    exact ⟨rfl, fun nid hnid => lookup_map_self (fun x => lookupD currentVotes x) _ nid hnid⟩

theorem eventNominee_mkRankEvent (a n : String) (i : Nat) :
    eventNominee (mkRankEvent a n i) = n := by
  unfold mkRankEvent
  split <;> rfl

theorem rankChangeAux_mem (awardId : String) (prevRanking : List String) :
    ∀ (curr : List String) (i0 : Nat) (e : DetectedEvent),
      e ∈ rankChangeEventsAux awardId prevRanking i0 curr →
      ∃ k j, curr[k]? = some (eventNominee e) ∧
        idxOf? (eventNominee e) prevRanking = some j ∧ i0 + k < j ∧
        e = mkRankEvent awardId (eventNominee e) (i0 + k) := by
  intro curr
  induction curr with
  | nil =>
    intro i0 e he
    simp [rankChangeEventsAux] at he
  | cons nid rest ih =>
    intro i0 e he
    simp only [rankChangeEventsAux, List.mem_append] at he
    rcases he with he | he
    · cases hj : idxOf? nid prevRanking with
      | none => rw [hj] at he; cases he
      | some j =>
        rw [hj] at he
        have he' : e ∈ (if i0 < j then [mkRankEvent awardId nid i0] else []) := he
        by_cases hij : i0 < j
        · rw [if_pos hij] at he'
          have heq : e = mkRankEvent awardId nid i0 := by simpa using he'
          subst heq
          rw [eventNominee_mkRankEvent]
          exact ⟨0, j, by simp, hj, by omega, by rw [Nat.add_zero]⟩
        · rw [if_neg hij] at he'
          cases he'
    · obtain ⟨k, j, h1, h2, h3, h4⟩ := ih (i0 + 1) e he
      have harith : (i0 + 1) + k = i0 + (k + 1) := by omega
      rw [harith] at h3 h4
      exact ⟨k + 1, j, by simpa using h1, h2, h3, h4⟩

theorem rankChangeAux_fires (awardId : String) (prevRanking : List String) :
    ∀ (curr : List String) (i0 k j : Nat) (nid : String),
      curr[k]? = some nid → idxOf? nid prevRanking = some j → i0 + k < j →
      mkRankEvent awardId nid (i0 + k) ∈ rankChangeEventsAux awardId prevRanking i0 curr := by
  intro curr
  induction curr with
  | nil =>
    intro i0 k j nid hget
    simp at hget
  | cons x rest ih =>
    intro i0 k j nid hget hidx hlt
    cases k with
    | zero =>
      have hx : x = nid := by simpa using hget
      subst hx
      simp only [rankChangeEventsAux, List.mem_append]
      left
      rw [hidx]
      show mkRankEvent awardId x (i0 + 0) ∈
        (if i0 < j then [mkRankEvent awardId x i0] else [])
      rw [if_pos (by omega : i0 < j), Nat.add_zero]
      exact List.mem_singleton.2 rfl
    | succ k0 =>
      simp only [rankChangeEventsAux, List.mem_append]
      right
      have hget' : rest[k0]? = some nid := by simpa using hget
      have := ih (i0 + 1) k0 j nid hget' hidx (by omega)
      have harith : (i0 + 1) + k0 = i0 + (k0 + 1) := by omega
      rwa [harith] at this

/-- C4: within one award group, a nominee present in both the previous and the
current ranking fires an event iff its rank index strictly decreased; a move to
index 0 is the distinguished new-leader variant, any other move up the generic
rank-up; and for prior ranking [X,Y,Z] and new ranking [Y,X,Z] exactly one
event fires, the new-leader event for Y. -/
theorem rankUp_event_iff :
    (∀ (awardId nid : String) (prevRanking currRanking : List String) (i j : Nat),
      currRanking.Nodup → currRanking[i]? = some nid →
      idxOf? nid prevRanking = some j →
      (((rankChangeEvents awardId prevRanking currRanking).any
          (fun e => eventNominee e == nid)) = true ↔ i < j) ∧
        (i < j →
          (if i = 0 then DetectedEvent.newLeader awardId nid
            else DetectedEvent.rankUp awardId nid i)
            ∈ rankChangeEvents awardId prevRanking currRanking)) ∧
      rankChangeEvents "a" ["X", "Y", "Z"] ["Y", "X", "Z"]
        = [DetectedEvent.newLeader "a" "Y"] := by
  constructor
  · intro awardId nid prevR currR i j hnd hget hidx
    constructor
    · constructor
      · intro hany
        obtain ⟨e, he, hnom⟩ := List.any_eq_true.1 hany
        have hnom' : eventNominee e = nid := by simpa using hnom
        obtain ⟨k, j', h1, h2, h3, h4⟩ :=
          rankChangeAux_mem awardId prevR currR 0 e he
        rw [hnom'] at h1 h2
        have hkl : k < currR.length := by
          by_contra hk
          rw [List.getElem?_eq_none (by omega)] at h1
          cases h1
        have hk : k = i := List.getElem?_inj hkl hnd (h1.trans hget.symm)
        have hj' : j = j' := by
          rw [hidx] at h2
          exact Option.some.inj h2
        omega
      · intro hij
        have hm := rankChangeAux_fires awardId prevR currR 0 i j nid hget hidx
          (by omega)
        rw [Nat.zero_add] at hm
        exact List.any_eq_true.2 ⟨_, hm, by simp [eventNominee_mkRankEvent]⟩
    · intro hij
      have hm := rankChangeAux_fires awardId prevR currR 0 i j nid hget hidx
        (by omega)
      rw [Nat.zero_add] at hm
      simpa [rankChangeEvents, mkRankEvent] using hm
  · decide

theorem rankUp_event_iff_witness :
    DetectedEvent.newLeader "a" "Y" ∈ rankChangeEvents "a" ["X", "Y", "Z"] ["Y", "X", "Z"] := by
  have h := (rankUp_event_iff.1 "a" "Y" ["X", "Y", "Z"] ["Y", "X", "Z"] 0 1
    (by decide) (by decide) (by decide)).2 (by decide)
  simpa using h

theorem coldStart_suppression_witness :
    (processRecipient exMeta exVotes 900 900 exFilter ⟨[], 0⟩).1 = [] ∧
      ((processRecipient exMeta exVotes 900 900 exFilter ⟨[], 0⟩).2.prevVotes).lookup "w1-n1"
        = some (lookupD exVotes "w1-n1") := by
  have h := coldStart_suppression exMeta exVotes 900 900 exFilter ⟨[], 0⟩ rfl
  exact ⟨h.1, h.2 "w1-n1" (by decide)⟩

theorem isRaceSummary_mkRankEvent (a n : String) (i : Nat) :
    isRaceSummary (mkRankEvent a n i) = false := by
  unfold mkRankEvent
  split <;> rfl

theorem filter_isRaceSummary_rankChange (a : String) (prevR currR : List String) :
    (rankChangeEvents a prevR currR).filter isRaceSummary = [] := by
  rw [List.filter_eq_nil_iff]
  intro e he
  obtain ⟨k, j, _, _, _, h4⟩ := rankChangeAux_mem a prevR currR 0 e he
  rw [h4, isRaceSummary_mkRankEvent]
  exact Bool.false_ne_true

theorem filter_isRaceSummary_milestones (a : String) (cv pv : List (String × Nat))
    (nids : List String) :
    (milestoneEvents a cv pv nids).filter isRaceSummary = [] := by
  rw [List.filter_eq_nil_iff]
  intro e he
  obtain ⟨nid, _, hmap⟩ := List.mem_filterMap.1 he
  obtain ⟨m, _, hme⟩ := Option.map_eq_some'.mp hmap
  rw [← hme]
  exact Bool.false_ne_true

/-- C5: when an award group of a recipient has at least two tracked nominees in
the current ranking and the summary interval has elapsed, its processing emits
exactly one race-summary event, carrying the current leader's id, the leader's
vote count and the leader-to-runner-up gap, and `last_summary_time` is set to
`now`; in the concrete scenario of one award with three nominees, a 900 s
interval and 900 s elapsed with no vote changes, the whole cycle emits exactly
the one race-summary event. -/
theorem raceSummary_fires (now interval lastSummaryTime : Int)
    (currentVotes prevVotes : List (String × Nat)) (awardId : String)
    (nids : List String) (top1 top2 : String) (rest : List String)
    (hdue : interval ≤ now - lastSummaryTime)
    (hrank : rankSort (fun x => lookupD currentVotes x) nids = top1 :: top2 :: rest) :
    ((processAward now interval currentVotes prevVotes awardId nids
          lastSummaryTime).1.filter isRaceSummary =
        [DetectedEvent.raceSummary awardId top1 (lookupD currentVotes top1)
          ((lookupD currentVotes top1 : Int) - (lookupD currentVotes top2 : Int))]) ∧
      (processAward now interval currentVotes prevVotes awardId nids
          lastSummaryTime).2 = now ∧
      (processRecipient exMeta exVotes 900 900 exFilter ⟨exVotes, 0⟩).1 =
        [DetectedEvent.raceSummary "w1" "w1-n1" 300 100] := by
  refine ⟨?_, ?_, by decide⟩
  · simp only [processAward]
    rw [hrank, if_pos hdue]
    simp only [List.filter_append, filter_isRaceSummary_rankChange,
      filter_isRaceSummary_milestones, List.append_nil]
    rfl
  · simp only [processAward]
    rw [hrank, if_pos hdue]

theorem raceSummary_fires_witness :
    (processAward 900 900 exVotes exVotes "w1" ["w1-n1", "w1-n2", "w1-n3"] 0).1.filter
        isRaceSummary =
      [DetectedEvent.raceSummary "w1" "w1-n1" (lookupD exVotes "w1-n1")
        ((lookupD exVotes "w1-n1" : Int) - (lookupD exVotes "w1-n2" : Int))] :=
  (raceSummary_fires 900 900 0 exVotes exVotes "w1" ["w1-n1", "w1-n2", "w1-n3"]
    "w1-n1" "w1-n2" ["w1-n3"] (by decide) (by decide)).1

/-- C1: a milestone is produced iff the count strictly increased and the floor
to the step (chosen from the new count by the schedule) strictly increased; the
reported value is the new floor; decreasing or unchanged counts never fire. -/
theorem milestone_characterization (oldVote newVote : Nat) :
    checkMilestoneCrossed oldVote newVote =
      (let step := if newVote ≤ 10000 then 1000
        else if newVote ≤ 50000 then 5000
        else if newVote ≤ 200000 then 10000
        else if newVote ≤ 1000000 then 50000
        else 100000
      if oldVote < newVote ∧ (oldVote / step) * step < (newVote / step) * step
      then some ((newVote / step) * step)
      else none) := by
  have hstep : getMilestoneStep newVote =
      (if newVote ≤ 10000 then 1000
        else if newVote ≤ 50000 then 5000
        else if newVote ≤ 200000 then 10000
        else if newVote ≤ 1000000 then 50000
        else 100000) := rfl
  simp only [checkMilestoneCrossed, ← hstep]
  by_cases h1 : newVote ≤ oldVote
  · have h2 : ¬ (oldVote < newVote ∧
        (oldVote / getMilestoneStep newVote) * getMilestoneStep newVote <
          (newVote / getMilestoneStep newVote) * getMilestoneStep newVote) := by
      intro h; omega
    simp [h1, h2]
  · by_cases h3 : (oldVote / getMilestoneStep newVote) * getMilestoneStep newVote <
        (newVote / getMilestoneStep newVote) * getMilestoneStep newVote
    · have h4 : oldVote < newVote ∧
          (oldVote / getMilestoneStep newVote) * getMilestoneStep newVote <
            (newVote / getMilestoneStep newVote) * getMilestoneStep newVote := ⟨by omega, h3⟩
      simp [h1, h3, h4]
    · have h4 : ¬ (oldVote < newVote ∧
          (oldVote / getMilestoneStep newVote) * getMilestoneStep newVote <
            (newVote / getMilestoneStep newVote) * getMilestoneStep newVote) := by
        intro h; exact h3 h.2
      simp [h1, h3, h4]

/-- C2 counterexample: the transition 10,050 → 10,200 fires NO milestone event
(the step for 10,200 is 5,000 and both counts floor to 10,000), contradicting
the claim that exactly one milestone fires there. -/
theorem milestone_10050_10200_none : checkMilestoneCrossed 10050 10200 = none := by
  decide

/-- C2 (amended): the transition 10,050 → 10,200 fires no milestone event (no
multiple of the applicable step 5,000 is newly crossed), and any transition
with curr_votes < prev_votes fires no milestone event. -/
theorem milestone_10050_10200_and_decrease :
    checkMilestoneCrossed 10050 10200 = none ∧
      ∀ prevVote currVote : Nat, currVote < prevVote →
        checkMilestoneCrossed prevVote currVote = none := by
  refine ⟨by decide, ?_⟩
  intro p c h
  simp only [checkMilestoneCrossed]
  have : c ≤ p := by omega
  simp [this]

theorem milestone_10050_10200_and_decrease_witness :
    checkMilestoneCrossed 5 3 = none :=
  milestone_10050_10200_and_decrease.2 5 3 (by decide)

/-- C6: the ranking is a permutation of the input ids, sorted descending by
vote count, stable (for every count value the ids holding it appear in input
order), and the spec's example input [(A,100),(B,150),(C,150)] ranks as
[(B,150),(C,150),(A,100)]. -/
theorem rankSort_spec (v : String → Nat) (l : List String) :
    (rankSort v l).Perm l ∧
      (rankSort v l).Pairwise (fun a b => v b ≤ v a) ∧
      (∀ c : Nat, (rankSort v l).filter (fun a => v a == c) =
        l.filter (fun a => v a == c)) ∧
      rankSort exampleVotes ["A", "B", "C"] = ["B", "C", "A"] :=
  ⟨perm_rankSort v l, pairwise_rankSort v l, fun c => filter_rankSort v c l, by decide⟩

theorem idxOf?_lt_length (t : String) :
    ∀ (l : List String) (i : Nat), idxOf? t l = some i → i < l.length := by
  intro l
  induction l with
  | nil => intro i h; cases h
  | cons x xs ih =>
    intro i h
    simp only [idxOf?] at h
    by_cases hx : x = t
    · rw [if_pos hx] at h
      cases h
      simp
    · rw [if_neg hx] at h
      obtain ⟨i0, hi0, rfl⟩ := Option.map_eq_some'.mp h
      have := ih i0 hi0
      simp only [List.length_cons]
      omega

theorem getD_of_lt (l : List (String × Nat)) (d : String × Nat) (i : Nat)
    (h : i < l.length) : l.getD i d = l[i] := by
  rw [List.getD_eq_getElem?_getD, List.getElem?_eq_getElem h]
  rfl

/-- C7 counterexample: in the tied ranking [(A,100),(B,100)] the record for B
has gap_to_leader = 0 although B is ranked second, refuting "gap_to_leader
equals 0 if and only if the target is ranked first". -/
theorem gapToTop_zero_for_tied_runnerUp :
    (calcGap [("A", 100), ("B", 100)] "B").map GapRecord.gapToTop = some 0 ∧
      (calcGap [("A", 100), ("B", 100)] "B").map GapRecord.actualRank = some 2 := by
  refine ⟨by decide, by decide⟩

/-- C7 (amended): for a descending ranking and a target present in it, the gap
record satisfies: a first-ranked target has no above-neighbour and
gap_to_leader 0; a last-ranked target has no below-neighbour; gap_to_leader is
0 iff the target's vote count equals the leader's (so a runner-up tied with
the leader also gets 0); and every defined gap value is non-negative. -/
theorem calcGap_spec (ranking : List (String × Nat)) (target : String) (r : GapRecord)
    (hsorted : ranking.Pairwise (fun a b => b.2 ≤ a.2))
    (hr : calcGap ranking target = some r) :
    (r.actualRank = 1 → r.gapAbove = none ∧ r.gapToTop = 0) ∧
      (r.actualRank = ranking.length → r.gapBelow = none) ∧
      (r.gapToTop = 0 ↔ (r.currentVotes : Int) = ((ranking.getD 0 ("", 0)).2 : Int)) ∧
      (∀ s g, r.gapAbove = some (s, g) → 0 ≤ g) ∧
      (∀ s g, r.gapBelow = some (s, g) → 0 ≤ g) ∧
      0 ≤ r.gapToTop := by
  unfold calcGap at hr
  cases hidx : idxOf? target (ranking.map Prod.fst) with
  | none => rw [hidx] at hr; cases hr
  | some idx =>
    rw [hidx] at hr
    have hlen : idx < ranking.length := by
      have := idxOf?_lt_length target (ranking.map Prod.fst) idx hidx
      simpa using this
    have hpw := List.pairwise_iff_getElem.mp hsorted
    have hr' := Option.some.inj hr
    subst hr'
    simp only
    refine ⟨?_, ?_, ?_, ?_, ?_, ?_⟩
    · intro h1
      have hidx0 : idx = 0 := by omega
      subst hidx0
      simp
    · intro hlast
      have : ¬ (idx < ranking.length - 1) := by omega
      simp [this]
    · omega
    · intro s g hg
      by_cases hpos : 0 < idx
      · rw [if_pos hpos] at hg
        have hglt : ((ranking.getD (idx - 1) ("", 0)).2 : Int) -
            ((ranking.getD idx ("", 0)).2 : Int) = g :=
          congrArg Prod.snd (Option.some.inj hg)
        have hmono := hpw (idx - 1) idx (by omega) hlen (by omega)
        rw [getD_of_lt _ _ _ (by omega), getD_of_lt _ _ _ hlen] at hglt
        omega
      · rw [if_neg hpos] at hg
        cases hg
    · intro s g hg
      by_cases hpos : idx < ranking.length - 1
      · rw [if_pos hpos] at hg
        have hglt : ((ranking.getD idx ("", 0)).2 : Int) -
            ((ranking.getD (idx + 1) ("", 0)).2 : Int) = g :=
          congrArg Prod.snd (Option.some.inj hg)
        have hmono := hpw idx (idx + 1) hlen (by omega) (by omega)
        rw [getD_of_lt _ _ _ hlen, getD_of_lt _ _ _ (by omega)] at hglt
        omega
      · rw [if_neg hpos] at hg
        cases hg
    · by_cases hpos : 0 < idx
      · have hmono := hpw 0 idx (by omega) hlen hpos
        rw [getD_of_lt _ _ _ (by omega : (0 : Nat) < ranking.length),
          getD_of_lt _ _ _ hlen]
        omega
      · have hidx0 : idx = 0 := by omega
        subst hidx0
        simp

theorem calcGap_spec_witness :
    ((⟨2, 100, some ("A", 100), none, 100, "A"⟩ : GapRecord).gapBelow = none) ∧
      (0 : Int) ≤ (⟨2, 100, some ("A", 100), none, 100, "A"⟩ : GapRecord).gapToTop := by
  have h := calcGap_spec [("A", 200), ("B", 100)] "B"
    ⟨2, 100, some ("A", 100), none, 100, "A"⟩ (by decide) (by decide)
  exact ⟨h.2.1 (by decide), h.2.2.2.2.2⟩

/-- C8: a permanent delivery failure deletes both the subscriber row and the
preference row of the endpoint, so every subsequent active-preferences query
excludes that endpoint; a transient failure leaves the database intact. -/
theorem permanentFailure_prunes (db : SubDB) (endpoint : String) :
    ((handleDeliveryResult db endpoint DeliveryResult.permanentFailure).subscribers.all
        (fun s => s.1 != endpoint) = true) ∧
      ((handleDeliveryResult db endpoint DeliveryResult.permanentFailure).preferences.all
        (fun p => p.1 != endpoint) = true) ∧
      ((getAllUserPreferences
          (handleDeliveryResult db endpoint DeliveryResult.permanentFailure)).all
        (fun p => p.1 != endpoint) = true) ∧
      handleDeliveryResult db endpoint DeliveryResult.transientFailure = db := by
  refine ⟨?_, ?_, ?_, rfl⟩
  · rw [List.all_eq_true]
    intro s hs
    exact (List.mem_filter.1 hs).2
  · rw [List.all_eq_true]
    intro p hp
    exact (List.mem_filter.1 hp).2
  · rw [List.all_eq_true]
    intro p hp
    obtain ⟨q, hq, hfq⟩ := List.mem_filterMap.1 hp
    have hq' := (List.mem_filter.1 hq).2
    by_cases hjoin : (handleDeliveryResult db endpoint
        DeliveryResult.permanentFailure).subscribers.any (fun s => s.1 == q.1)
    · rw [if_pos hjoin] at hfq
      have hpq : p.1 = q.1 := (congrArg Prod.fst (Option.some.inj hfq)).symm
      rw [hpq]
      exact hq'
    · rw [if_neg hjoin] at hfq
      cases hfq

theorem permanentFailure_prunes_witness :
    (getAllUserPreferences
        (handleDeliveryResult
          ⟨[("e1", "k", "a")], [("e1", ⟨none, none⟩)]⟩ "e1"
          DeliveryResult.permanentFailure)).all
      (fun p => p.1 != "e1") = true :=
  (permanentFailure_prunes ⟨[("e1", "k", "a")], [("e1", ⟨none, none⟩)]⟩ "e1").2.2.1

/-- C10: an endpoint with no stored preference row gets the defaults — empty
nominee filter and a 900 second summary interval — and the lookup always
succeeds (the accessor is total). -/
theorem getUserPreferences_default (db : SubDB) (endpoint : String)
    (h : db.preferences.lookup endpoint = none) :
    getUserPreferences db endpoint = { nomineeFilter := [], summaryInterval := 900 } := by
  unfold getUserPreferences
  rw [h]

theorem getUserPreferences_default_witness :
    getUserPreferences ⟨[], []⟩ "never-seen" =
      { nomineeFilter := [], summaryInterval := 900 } :=
  getUserPreferences_default ⟨[], []⟩ "never-seen" rfl

/-- C9 counterexample: a successful fetch with one data item itself writes the
persistent vote store (the history table grows), refuting the claim that the
store is unchanged by every fetch invocation. -/
theorem crawlVotes_writes :
    (crawlVotes ⟨[], []⟩ "t0" (some ⟨true, [⟨"1", "34", ["5"]⟩]⟩)).2 ≠
      (⟨[], []⟩ : VoteStore) := by
  decide

/-- C9 (amended): the fetch itself persists. A transport/parse failure or a
non-success response leaves the store unchanged, as does an empty parsed
payload; a successful fetch with nonempty parsed data appends the batch rows
to the history table and upserts them into the latest table. -/
theorem crawlVotes_effects (store : VoteStore) (now : String) :
    (crawlVotes store now none).2 = store ∧
      (∀ r : ApiResponse, r.success = false →
        (crawlVotes store now (some r)).2 = store) ∧
      (∀ r : ApiResponse, r.success = true →
        (buildVotesData r.data).isEmpty = true →
        (crawlVotes store now (some r)).2 = store) ∧
      (∀ r : ApiResponse, r.success = true →
        (buildVotesData r.data).isEmpty = false →
        (crawlVotes store now (some r)).2.history =
            store.history ++ voteRows (buildVotesData r.data) now ∧
          (crawlVotes store now (some r)).2.latest =
            (voteRows (buildVotesData r.data) now).foldl upsertLatestRow store.latest) := by
  refine ⟨rfl, ?_, ?_, ?_⟩
  · intro r hfail
    simp [crawlVotes, hfail]
  · intro r hsucc hempty
    simp [crawlVotes, hsucc, hempty]
  · intro r hsucc hne
    simp [crawlVotes, hsucc, hne, saveVotes]

theorem crawlVotes_effects_witness :
    (crawlVotes ⟨[], []⟩ "t0" (some ⟨true, [⟨"1", "34", ["5"]⟩]⟩)).2.history =
      [] ++ voteRows (buildVotesData [⟨"1", "34", ["5"]⟩]) "t0" :=
  ((crawlVotes_effects ⟨[], []⟩ "t0").2.2.2 ⟨true, [⟨"1", "34", ["5"]⟩]⟩ rfl
    (by decide)).1
